import Mathlib

/-!
Verification development for the slide-edit execution engine of PPTAgent
(`src/pptagent/apis.py`).  The data structures imported by `apis.py` from
`pptagent.presentation` (Closure, ClosureType, Picture, ShapeElement,
SlidePage) are not part of the available sources; they are modelled from the
specification (sections 3 and 4 of `spec.md`).  All operations
(`element_index`, `validate_paragraph_operation`, `del_paragraph`,
`replace_paragraph`, `clone_paragraph`, `del_image`, `replace_image`,
`replace_image_with_table`, `CodeExecutor.execute_actions`) are translated
directly from `apis.py`.  Python exceptions are modelled as an `Except` error
value; the `traceback` captured by the executor is modelled by the raised
error value itself.
-/

namespace PPTAgent

/-- Modelled from the spec: the `ClosureType` tags of `pptagent.presentation`
(missing from the sources): one queue per operation kind,
DELETE / REPLACE / CLONE / MERGE. -/
inductive ClosureType where
  | DELETE
  | REPLACE
  | CLONE
  | MERGE
deriving DecidableEq, Repr

/-- The deferred mutation bound inside a `Closure`.  Each constructor records
the Python `partial(...)` built in `apis.py` (the bound function and the
arguments captured at enqueue time). -/
inductive ClosurePayload where
  | delPara (real_idx : Nat)
  | replacePara (real_idx : Nat) (text : String)
  | clonePara (real_idx : Nat)
  | addTable (cells : List (List String))
  | mergeCells (merge_area : Option (List (Int × Int × Int × Int)))
deriving DecidableEq, Repr

/-- Modelled from the spec: a `Closure` of `pptagent.presentation` (missing
from the sources) pairs a deferred mutation with the physical index captured
at enqueue time; `apis.py` constructs it as `Closure(partial(...), real_idx)`
for paragraph operations and `Closure(partial(...))` (no index) for table
operations, so the captured index is optional.  Closures are inert records:
nothing in this development applies them. -/
structure Closure where
  payload : ClosurePayload
  real_idx : Option Nat
deriving DecidableEq, Repr

/-- The four per-shape closure queues (`shape._closures`, a dict keyed by
`ClosureType` in the source). -/
structure ClosureQueues where
  replace : List Closure
  clone : List Closure
  delete : List Closure
  merge : List Closure
deriving DecidableEq, Repr

/-- Modelled from the spec: a `Paragraph` of `pptagent.presentation` (missing
from the sources): `idx` is the stable logical id with `-1` as the
"not addressable" sentinel, `real_idx` the current physical position, plus
its text content. -/
structure Paragraph where
  idx : Int
  real_idx : Nat
  text : String
deriving DecidableEq, Repr

/-- Modelled from the spec: the text frame of a shape: a capability flag
(`is_textframe`) and the ordered paragraph collection. -/
structure TextFrame where
  is_textframe : Bool
  paragraphs : List Paragraph
deriving DecidableEq, Repr

/-- Modelled from the spec: a `ShapeElement` of `pptagent.presentation`
(missing from the sources).  `isPicture` models `isinstance(shape, Picture)`;
geometry fields are exact rationals in points (the pptx `Pt` constructor is
modelled below); `is_table`, `grid` and `img_path` are the fields assigned by
`replace_image` / `replace_image_with_table` in `apis.py`, and `closures`
models `shape._closures`. -/
structure ShapeElement where
  shape_idx : Int
  text_frame : TextFrame
  closures : ClosureQueues
  isPicture : Bool
  is_table : Bool
  grid : Nat × Nat
  width : ℚ
  height : ℚ
  top : ℚ
  left : ℚ
  img_path : String
deriving DecidableEq, Repr

/-- Modelled from the spec: a `SlidePage` of `pptagent.presentation` (missing
from the sources): its index and its shape collection. -/
structure SlidePage where
  slide_idx : Int
  shapes : List ShapeElement
deriving DecidableEq, Repr

/-- A table in the document's media store
(`pptagent.document.element.Table`): `cells` and `merge_area` are `Optional`
in the source. -/
structure Table where
  cells : Option (List (List String))
  merge_area : Option (List (Int × Int × Int × Int))
deriving DecidableEq, Repr

/-- One media item yielded by `Document.iter_medias`; `table` is `some` when
the media `isinstance(media, Table)`. -/
structure DocMedia where
  path : String
  table : Option Table
deriving DecidableEq, Repr

/-- The `Document` restricted to what `apis.py` uses: its media store. -/
structure Document where
  medias : List DocMedia
deriving DecidableEq, Repr

/-- The exceptions raised by `apis.py`, as structured values.  The named
constructors are the `SlideEditError` raise-sites (carrying the data
interpolated into the Python message); `external` models any non-domain
Python exception (e.g. `ValueError` from `Document.get_table`, `TypeError` /
`IndexError` from `len`) — the executor catches every `Exception`
uniformly. -/
inductive SlideEditError where
  | noCodeBlock
  | defNotAllowed
  | functionNotDefined (func : String)
  | elementNotFound (element_id : Int)
  | noTextFrame (div_id : Int)
  | noValidParagraphs (div_id : Int) (total : Nat)
  | paragraphNotFound (paragraph_id : Int) (div_id : Int)
      (available_ids : List Int) (operation_name : String)
  | invalidParagraph (paragraph_id : Int) (div_id : Int) (operation_name : String)
  | notAPicture (shape_idx : Int) (slide_idx : Int)
  | imageNotFound (image_path : String)
  | tableNotFound (image_path : String)
  | external (msg : String)
deriving DecidableEq, Repr

/-- Python `max` over a list of ints (used on nonempty lists only in the
source; the `[]` value is arbitrary). -/
def listMax : List Int → Int
  | [] => 0
  | x :: xs => xs.foldl max x

/-- Replace the first element satisfying `p` (models in-place mutation of an
aliased object found in a list). -/
def updateFirstBy (p : α → Bool) (f : α → α) : List α → List α
  | [] => []
  | a :: rest => if p a then f a :: rest else a :: updateFirstBy p f rest

/-- Python `list.remove`: drop the first occurrence of `a` (identity equality
in the source; structural equality here — the uses in `apis.py` remove an
element obtained from the list itself).  Absent element (which would raise
`ValueError` in Python) never occurs at the call sites. -/
def removeFirst [BEq α] : List α → α → List α
  | [], _ => []
  | x :: rest, a => if x == a then rest else x :: removeFirst rest a

/-- Write back an updated shape over the first shape with the given id
(models that `element_index` returns an alias into `slide.shapes` which the
operations mutate in place). -/
def SlidePage.updateShape (slide : SlidePage) (element_id : Int)
    (s' : ShapeElement) : SlidePage :=
  { slide with
    shapes := updateFirstBy (fun sh => sh.shape_idx == element_id)
      (fun _ => s') slide.shapes }

/-- `element_index` from `apis.py`: first shape with the given `shape_idx`,
else a `SlideEditError`. -/
def element_index (slide : SlidePage) (element_id : Int) :
    Except SlideEditError ShapeElement :=
  match slide.shapes.find? (fun sh => sh.shape_idx == element_id) with
  | some shape => .ok shape
  | none => .error (.elementNotFound element_id)

/-- `validate_paragraph_operation` from `apis.py`: textframe check, valid-id
set check, exact-match search over all paragraphs, upward auto-correction to
the maximum valid id, and the final `-1` sentinel check.  The unreachable
`next(...)` exhaustion is modelled as an `external` error. -/
def validate_paragraph_operation (shape : ShapeElement) (div_id : Int)
    (paragraph_id : Int) (operation_name : String) :
    Except SlideEditError Paragraph := do
  if !shape.text_frame.is_textframe then
    throw (.noTextFrame div_id)
  let all_paragraphs := shape.text_frame.paragraphs
  let valid_paragraphs := all_paragraphs.filter (fun p => p.idx != -1)
  if valid_paragraphs.isEmpty then
    throw (.noValidParagraphs div_id all_paragraphs.length)
  let target_paragraph ←
    match all_paragraphs.find? (fun p => p.idx == paragraph_id) with
    | some t => pure t
    | none =>
      let available_ids := valid_paragraphs.map Paragraph.idx
      if !available_ids.isEmpty && paragraph_id ≥ listMax available_ids then
        match valid_paragraphs.find? (fun p => p.idx == listMax available_ids) with
        | some t => pure t
        | none => throw (.external "StopIteration")
      else
        throw (.paragraphNotFound paragraph_id div_id available_ids operation_name)
  if target_paragraph.idx == -1 then
    throw (.invalidParagraph paragraph_id div_id operation_name)
  pure target_paragraph

/-- `del_paragraph` from `apis.py`: remove the resolved paragraph from the
shadow model and enqueue a DELETE closure bound to its `real_idx`. -/
def del_paragraph (slide : SlidePage) (div_id paragraph_id : Int) :
    Except SlideEditError SlidePage := do
  let shape ← element_index slide div_id
  let target ← validate_paragraph_operation shape div_id paragraph_id "delete"
  let shape' := { shape with
    text_frame := { shape.text_frame with
      paragraphs := removeFirst shape.text_frame.paragraphs target },
    closures := { shape.closures with
      delete := shape.closures.delete ++
        [⟨.delPara target.real_idx, some target.real_idx⟩] } }
  pure (slide.updateShape div_id shape')

/-- `del_image` from `apis.py`: Picture check, then remove the shape from the
slide's shape collection. -/
def del_image (slide : SlidePage) (figure_id : Int) :
    Except SlideEditError SlidePage := do
  let shape ← element_index slide figure_id
  if !shape.isPicture then
    throw (.notAPicture shape.shape_idx slide.slide_idx)
  pure { slide with shapes := removeFirst slide.shapes shape }

/-- `replace_paragraph` from `apis.py`: set the resolved paragraph's text in
the shadow model and enqueue a REPLACE closure bound to its `real_idx`. -/
def replace_paragraph (slide : SlidePage) (div_id paragraph_id : Int)
    (text : String) : Except SlideEditError SlidePage := do
  let shape ← element_index slide div_id
  let target ← validate_paragraph_operation shape div_id paragraph_id "replace"
  let shape' := { shape with
    text_frame := { shape.text_frame with
      paragraphs := updateFirstBy (fun p => p == target)
        (fun p => { p with text := text }) shape.text_frame.paragraphs },
    closures := { shape.closures with
      replace := shape.closures.replace ++
        [⟨.replacePara target.real_idx text, some target.real_idx⟩] } }
  pure (slide.updateShape div_id shape')

/-- `clone_paragraph` from `apis.py`: deep-copy the resolved paragraph, give
the copy idx `max_valid_idx + 1` and `real_idx` = current collection length,
append it, and enqueue a CLONE closure bound to the source paragraph's
`real_idx`. -/
def clone_paragraph (slide : SlidePage) (div_id paragraph_id : Int) :
    Except SlideEditError SlidePage := do
  let shape ← element_index slide div_id
  let target ← validate_paragraph_operation shape div_id paragraph_id "clone"
  let valid_indices :=
    (shape.text_frame.paragraphs.filter (fun p => p.idx != -1)).map Paragraph.idx
  let max_idx := listMax valid_indices
  let cloned := { target with
    idx := max_idx + 1,
    real_idx := shape.text_frame.paragraphs.length }
  let shape' := { shape with
    text_frame := { shape.text_frame with
      paragraphs := shape.text_frame.paragraphs ++ [cloned] },
    closures := { shape.closures with
      clone := shape.closures.clone ++
        [⟨.clonePara target.real_idx, some target.real_idx⟩] } }
  pure (slide.updateShape div_id shape')

/-- `Document.get_table` from `pptagent/document/document.py`: first media
whose path matches and which is a `Table`; `ValueError` otherwise. -/
def Document.get_table (doc : Document) (image_path : String) :
    Except SlideEditError Table :=
  go doc.medias
where
  go : List DocMedia → Except SlideEditError Table
    | [] => .error (.tableNotFound image_path)
    | m :: rest =>
      match m.table with
      | some t => if m.path == image_path then .ok t else go rest
      | none => go rest

/-- Hexadecimal digit, as in the character class `[0-9a-fA-F]`. -/
def isHexDigit (c : Char) : Bool :=
  ('0' ≤ c && c ≤ '9') || ('a' ≤ c && c ≤ 'f') || ('A' ≤ c && c ≤ 'F')

/-- `TABLE_REGEX = re.compile(r".*table_[0-9a-fA-F]{4}\.png$")`, applied via
`re.match`: an optional final newline is allowed (Python `$`), the last 14
characters must be `table_` + four hex digits + `.png`, and the leading `.*`
cannot cross a newline. -/
def tableRegexMatch (s : String) : Bool :=
  let cs := s.data
  let cs := if cs.getLast? == some '\n' then cs.dropLast else cs
  let n := cs.length
  decide (n ≥ 14) &&
  (cs.take (n - 14)).all (fun c => c != '\n') &&
  (let suf := cs.drop (n - 14)
   suf.take 6 == "table_".data &&
   ((suf.drop 6).take 4).all isHexDigit &&
   suf.drop 10 == ".png".data)

/-- `replace_image_with_table` from `apis.py`.  An error carries the shape as
mutated up to the raise point (`shape.is_table = True` is applied before
`len(table.cells)` / `table.cells[0]` can raise), matching Python's in-place
mutation semantics. -/
def replace_image_with_table (shape : ShapeElement) (doc : Document)
    (image_path : String) : Except (SlideEditError × ShapeElement) ShapeElement :=
  match doc.get_table image_path with
  | .error e => .error (e, shape)
  | .ok table =>
    let shape1 := { shape with is_table := true }
    match table.cells with
    | none => .error (.external "TypeError: len of NoneType", shape1)
    | some cells =>
      match cells with
      | [] => .error (.external "IndexError: list index out of range", shape1)
      | row0 :: _ =>
        let shape2 := { shape1 with grid := (cells.length, row0.length) }
        let shape3 := { shape2 with closures := { shape2.closures with
          replace := shape2.closures.replace ++
            [Closure.mk (.addTable cells) none] } }
        let shape4 := { shape3 with closures := { shape3.closures with
          merge := shape3.closures.merge ++
            [Closure.mk (.mergeCells table.merge_area) none] } }
        .ok shape4

/-- Modelled from the spec: the pptx `Pt` length constructor applied to shape
geometry.  `pptagent.presentation` (missing from the sources) defines how
`ShapeElement` stores geometry; per the spec's geometry rule the stored
values are point quantities and `Pt` re-expresses a point value as a length,
i.e. it is the identity on the stored rational. -/
def Pt (points : ℚ) : ℚ := points

/-- The plain image-swap tail of `replace_image` from `apis.py`: uniform
minimum-ratio scaling, vertical centering (top adjusted using the original
height before width/height are overwritten), left untouched.  `imgSize`
models `PIL.Image.open(image_path).size`. -/
def image_swap (imgSize : String → Nat × Nat) (shape : ShapeElement)
    (image_path : String) : ShapeElement :=
  let img_size := imgSize image_path
  let r : ℚ := min (shape.width / (img_size.1 : ℚ)) (shape.height / (img_size.2 : ℚ))
  let new_width : ℚ := (img_size.1 : ℚ) * r
  let new_height : ℚ := (img_size.2 : ℚ) * r
  { shape with
    top := Pt (shape.top + (shape.height - new_height) / 2),
    width := Pt new_width,
    height := Pt new_height,
    img_path := image_path }

/-- `replace_image` from `apis.py`.  `fs` models `os.path.exists`; `imgSize`
models `PIL.Image.open(...).size`.  The `try/except` around the table
redirection catches any exception, logs a warning, and falls through to the
plain image-swap path applied to the shape as mutated so far. -/
def replace_image (fs : String → Bool) (imgSize : String → Nat × Nat)
    (slide : SlidePage) (doc : Document) (img_id : Int) (image_path : String) :
    Except SlideEditError SlidePage := do
  if !fs image_path then
    throw (.imageNotFound image_path)
  let shape ← element_index slide img_id
  if !shape.isPicture then
    throw (.notAPicture shape.shape_idx slide.slide_idx)
  if tableRegexMatch image_path then
    match replace_image_with_table shape doc image_path with
    | .ok shape' => pure (slide.updateShape img_id shape')
    | .error (_, shapeP) =>
      pure (slide.updateShape img_id (image_swap imgSize shapeP image_path))
  else
    pure (slide.updateShape img_id (image_swap imgSize shape image_path))

/-! ### The command executor (`CodeExecutor.execute_actions`) -/

/-- A Python whitespace character (the default `str.strip` set). -/
def isPyWhitespace (c : Char) : Bool :=
  c == ' ' || c == '\t' || c == '\n' || c == '\r' || c == '\x0b' || c == '\x0c'

/-- Python `str.strip()`: drop leading and trailing whitespace.  (Implemented
over the character list so that it evaluates by reduction.) -/
def pyStrip (s : String) : String :=
  ⟨((s.data.dropWhile isPyWhitespace).reverse.dropWhile isPyWhitespace).reverse⟩

/-- Python `str.split(sep)` for a one-character separator: split on every
occurrence, keeping empty fragments (`"".split(sep) == [""]`). -/
def splitOnChar (c : Char) : List Char → List (List Char)
  | [] => [[]]
  | x :: rest =>
    if x == c then [] :: splitOnChar c rest
    else
      match splitOnChar c rest with
      | [] => [[x]]
      | g :: gs => (x :: g) :: gs

/-- `actions.strip().split("\n")` from `execute_actions`. -/
def pySplitLines (s : String) : List String :=
  (splitOnChar '\n' s.data).map String.mk

/-- Python `str.startswith`. -/
def pyStartsWith (s pre : String) : Bool := pre.data.isPrefixOf s.data

/-- Python `"\n".join(...)` (`String.intercalate`, implemented by structural
recursion). -/
def joinLines (sep : String) : List String → String
  | [] => ""
  | a :: as => as.foldl (fun acc b => acc ++ sep ++ b) a

/-- The evaluation oracle modelling
`eval(line, {}, {func: partial_func})` in `execute_actions`: the restricted
evaluator parses the literal arguments of `line` and invokes the registered
function named `func` (already bound to the slide, and to the document for
`replace_image`) on the current slide.  It is a parameter of the model, like
`registered_functions` holds callables in the source; the executor invokes it
exactly where the source calls `eval`. -/
abbrev EvalOracle := String → String → SlidePage → Except SlideEditError SlidePage

/-- The allow-list `API_TYPES.Agent` / `CodeExecutor.registered_functions`
(function names, from `apis.py`). -/
def registered_functions : List String :=
  ["replace_image", "del_image", "clone_paragraph", "replace_paragraph",
   "del_paragraph"]

/-- Lowercase ASCII letter, the character class `[a-z]`. -/
def isLowerAZ (c : Char) : Bool := 'a' ≤ c && c ≤ 'z'

/-- A character of the class `[a-z_]`. -/
def isFuncChar (c : Char) : Bool := isLowerAZ c || c == '_'

/-- `re.match(r"^[a-z]+_[a-z_]+\(.+\)", line)` as a Boolean: the line starts
with a nonempty lowercase run, an underscore, a nonempty `[a-z_]` run, then
`(`, at least one argument character, and a later `)`. -/
def function_regex_match (line : String) : Bool :=
  let cs := line.data
  let p := cs.takeWhile isFuncChar
  match cs.drop p.length with
  | '(' :: after =>
    (match p.drop (p.takeWhile isLowerAZ).length with
     | '_' :: b => !(p.takeWhile isLowerAZ).isEmpty && !b.isEmpty
     | _ => false)
    && (after.drop 1).contains ')'
  | _ => false

/-- `line.split("(")[0]`: the text before the first `(`. -/
def funcName (line : String) : String :=
  ⟨line.data.takeWhile (fun c => c != '(')⟩

/-- The executor's state: the slide being edited (mutated in place in the
source) and the three history lists of `CodeExecutor`.  History entries are
the source's 3-element lists `[mark, payload, trace]`; marks are the
`HistoryMark` strings. -/
structure ExecState where
  slide : SlidePage
  api_history : List (String × Int × String)
  command_history : List (String × String × Option SlideEditError)
  code_history : List (String × String × Option SlideEditError)
deriving DecidableEq, Repr

/-- Replace the last element of a list (models `lst[-1] = ...` on a nonempty
Python list; the identity on `[]`). -/
def modifyLast (f : α → α) : List α → List α
  | [] => []
  | [a] => [f a]
  | a :: b :: rest => a :: modifyLast f (b :: rest)

/-- Python `l[:i]` (`take`, with negative indices counting from the end). -/
def pySliceTake (l : List α) (i : Int) : List α :=
  if 0 ≤ i then l.take i.toNat else l.take (l.length - (-i).toNat)

/-- The annotated listing built by the exception handler of
`execute_actions`:
`"\n".join(api_calls[: line_idx - 1]) + "\n--> Error Line: {line}\n" +
"\n".join(api_calls[line_idx + 1 :])`. -/
def annotate (api_calls : List String) (line_idx : Nat) (line : String) :
    String :=
  joinLines "\n" (pySliceTake api_calls ((line_idx : Int) - 1))
    ++ "\n--> Error Line: " ++ line ++ "\n"
    ++ joinLines "\n" (api_calls.drop (line_idx + 1))

/-- The state update of the exception handler: if `code_history` is nonempty,
store the trace into its last entry (whether or not that entry belongs to the
failing line). -/
def errState (st : ExecState) (e : SlideEditError) : ExecState :=
  { st with code_history :=
      if st.code_history.isEmpty then st.code_history
      else modifyLast (fun ent => (ent.1, ent.2.1, some e)) st.code_history }

/-- Outcome of processing one line: continue with updated state,
`found_code` flag and `func`-bound flag; abort with the handler's state,
annotated listing and trace; or crash: the except handler of the source
evaluates `f"...'{func}'..."` in both of its branches (apis.py:189,192)
before anything else, and `func` is a local assigned only when a line has
matched the operation-call regex (apis.py:176), so if the failure precedes
every operation-call line of the call the handler itself raises
`UnboundLocalError`, which propagates out of `execute_actions` — the trace
write and the annotated listing are never reached on that path. -/
inductive StepOut where
  | cont (st : ExecState) (found_code : Bool) (func_bound : Bool)
  | err (st : ExecState) (api_lines : String) (trace : SlideEditError)
  | crash (st : ExecState) (handling : SlideEditError)
deriving DecidableEq, Repr

/-- Raising an exception at a line: run the except handler.  If `func` is
bound (`func_bound`), the handler logs, writes the trace into the last
code-history entry and returns the annotated pair; otherwise its very first
statement (the log f-string referencing `func`) raises `UnboundLocalError`,
so the state is left exactly as it was at the raise and no pair is built. -/
def raiseAt (api_calls : List String) (line_idx : Nat) (line : String)
    (st : ExecState) (func_bound : Bool) (e : SlideEditError) : StepOut :=
  if func_bound then .err (errState st e) (annotate api_calls line_idx line) e
  else .crash st e

/-- One iteration of the `for line_idx, line in enumerate(api_calls)` loop of
`execute_actions`, translated check by check from the source.  `func_bound`
records whether `func = line.split("(")[0]` has executed during this call;
it is set (together with `found_code`) exactly when a line matches the
operation-call regex, so raises at the not-registered check or from `eval`
always find `func` bound, while the no-code-block and `def` raises crash the
handler when no operation-call line preceded them. -/
def stepLine (ev : EvalOracle) (api_calls : List String) (line_idx : Nat)
    (line : String) (st : ExecState) (found_code : Bool) (func_bound : Bool) :
    StepOut :=
  if line_idx == api_calls.length - 1 && !found_code then
    raiseAt api_calls line_idx line st func_bound .noCodeBlock
  else if pyStartsWith line "def" then
    raiseAt api_calls line_idx line st func_bound .defNotAllowed
  else if pyStartsWith line "#" then
    let ch :=
      if st.command_history.isEmpty then st.command_history
      else modifyLast (fun ent => ("comment_correct", ent.2.1, ent.2.2))
        st.command_history
    .cont { st with command_history := ch ++ [("comment_error", line, none)] }
      found_code func_bound
  else if !function_regex_match line then
    .cont st found_code func_bound
  else
    let func := funcName line
    if !registered_functions.contains func then
      raiseAt api_calls line_idx line st true (.functionNotDefined func)
    else
      let st1 := { st with
        code_history := st.code_history ++ [("code_run_error", line, none)] }
      match ev func line st1.slide with
      | .ok slide' =>
        .cont { st1 with
          slide := slide',
          code_history := modifyLast
            (fun ent => ("code_run_correct", ent.2.1, ent.2.2))
            st1.code_history } true true
      | .error e => raiseAt api_calls line_idx line st1 true e

/-- Outcome of the whole loop: all lines processed, aborted with the
annotated pair, or crashed (the handler's `UnboundLocalError` propagates
while handling the recorded error). -/
inductive LoopOut where
  | done (st : ExecState) (found_code : Bool) (func_bound : Bool)
  | failed (st : ExecState) (api_lines : String) (trace : SlideEditError)
  | crashed (st : ExecState) (handling : SlideEditError)
deriving DecidableEq, Repr

/-- The loop of `execute_actions` over the remaining lines (`api_calls` is
the full list, needed for the last-line check and the annotation). -/
def runLines (ev : EvalOracle) (api_calls : List String) :
    List String → Nat → ExecState → Bool → Bool → LoopOut
  | [], _, st, fc, fb => .done st fc fb
  | line :: rest, i, st, fc, fb =>
    match stepLine ev api_calls i line st fc fb with
    | .cont st' fc' fb' => runLines ev api_calls rest (i + 1) st' fc' fb'
    | .err st' a t => .failed st' a t
    | .crash st' e => .crashed st' e

/-- The success epilogue of `execute_actions`: flip the last comment entry
and the batch entry to CORRECT. -/
def finalizeState (st : ExecState) : ExecState :=
  { st with
    command_history :=
      if st.command_history.isEmpty then st.command_history
      else modifyLast (fun ent => ("comment_correct", ent.2.1, ent.2.2))
        st.command_history,
    api_history := modifyLast (fun ent => ("api_call_correct", ent.2.1, ent.2.2))
      st.api_history }

/-- The batch-entry append at the top of `execute_actions`:
`self.api_history.append([API_CALL_ERROR, edit_slide.slide_idx, actions])`. -/
def initState (st : ExecState) (actions : String) : ExecState :=
  { st with api_history :=
      st.api_history ++ [("api_call_error", st.slide.slide_idx, actions)] }

/-- The observable outcome of a call to `execute_actions`: a normal return
(the Python method returns the optional pair), or an unhandled exception
propagating to the caller — the except handler's `UnboundLocalError`,
carrying the executor state at that moment and the error that was being
handled.  In-memory mutations and histories persist in both cases (the slide
and the history lists are shared objects). -/
inductive ExecResult where
  | ret (st : ExecState) (res : Option (String × SlideEditError))
  | crash (st : ExecState) (handling : SlideEditError)
deriving DecidableEq, Repr

/-- `CodeExecutor.execute_actions` from `apis.py`: split the stripped actions
into lines, record the batch entry, run the loop (with `func` initially
unbound); return `(annotated lines, trace)` on a handled first failure, no
error signal (`none`) if every line is processed, and propagate the handler
crash otherwise. -/
def execute_actions (ev : EvalOracle) (actions : String) (st : ExecState)
    (found_code : Bool) : ExecResult :=
  let api_calls := pySplitLines (pyStrip actions)
  match runLines ev api_calls api_calls 0 (initState st actions) found_code
      false with
  | .done st' _ _ => .ret (finalizeState st') none
  | .failed st' a t => .ret st' (some (a, t))
  | .crashed st' e => .crash st' e

/-- The part of a step/loop outcome that does not depend on the annotated
listing.  Used to state that lines after the failing one are never
evaluated. -/
inductive CoreOut where
  | cont (st : ExecState) (found_code : Bool) (func_bound : Bool)
  | err (st : ExecState) (trace : SlideEditError)
  | crash (st : ExecState) (handling : SlideEditError)
deriving DecidableEq, Repr

/-- Erase the annotated listing from a step outcome. -/
def StepOut.core : StepOut → CoreOut
  | .cont st fc fb => .cont st fc fb
  | .err st _ t => .err st t
  | .crash st e => .crash st e

/-- Erase the annotated listing from a loop outcome. -/
def LoopOut.core : LoopOut → CoreOut
  | .done st fc fb => .cont st fc fb
  | .failed st _ t => .err st t
  | .crashed st e => .crash st e

/-! ### Concrete sample inputs used to exercise the model -/

/-- Extract the success value of an `Except` (with an explicit default). -/
def exOk (e : Except ε α) (d : α) : α :=
  match e with
  | .ok a => a
  | .error _ => d

/-- A text shape with valid paragraph ids `{0, 1, 2}`. -/
def sampleShape : ShapeElement :=
  { shape_idx := 1,
    text_frame := { is_textframe := true,
                    paragraphs := [⟨0, 0, "a"⟩, ⟨1, 1, "b"⟩, ⟨2, 2, "c"⟩] },
    closures := ⟨[], [], [], []⟩,
    isPicture := false, is_table := false, grid := (0, 0),
    width := 4, height := 3, top := 0, left := 0, img_path := "" }

/-- A picture shape (width 4, height 3). -/
def samplePicShape : ShapeElement :=
  { shape_idx := 2,
    text_frame := { is_textframe := false, paragraphs := [] },
    closures := ⟨[], [], [], []⟩,
    isPicture := true, is_table := false, grid := (0, 0),
    width := 4, height := 3, top := 0, left := 5, img_path := "old.png" }

/-- A text shape containing a sentinel (`idx = -1`) paragraph next to a valid
one. -/
def sentinelShape : ShapeElement :=
  { sampleShape with
    shape_idx := 5,
    text_frame := { is_textframe := true,
                    paragraphs := [⟨0, 0, "a"⟩, ⟨-1, 1, "b"⟩] } }

/-- A slide holding the sample text shape and the sample picture shape. -/
def sampleSlide : SlidePage := ⟨0, [sampleShape, samplePicShape]⟩

/-- A document whose media store holds one rendered table. -/
def sampleDoc : Document :=
  ⟨[⟨"x/table_0a1b.png", some ⟨some [["a", "b"], ["c", "d"]], some []⟩⟩]⟩

/-- A filesystem oracle: the two sample image paths exist. -/
def sampleFs : String → Bool :=
  fun p => p == "x/table_0a1b.png" || p == "img.png"

/-- An image-size oracle: every image is 2 × 1 pixels. -/
def sampleImgSize : String → Nat × Nat := fun _ => (2, 1)

/-- An evaluation oracle that accepts every call and leaves the slide
unchanged (used to exercise the executor's control flow). -/
def sampleEv : EvalOracle := fun _ _ s => .ok s

/-- An initial executor state over the sample slide with empty histories. -/
def sampleSt : ExecState := ⟨sampleSlide, [], [], []⟩

/-- Result slide of a sample `del_paragraph` call. -/
def delParagraphRes : SlidePage := exOk (del_paragraph sampleSlide 1 1) sampleSlide

/-- Result slide of a sample `replace_paragraph` call. -/
def replaceParagraphRes : SlidePage :=
  exOk (replace_paragraph sampleSlide 1 0 "X") sampleSlide

/-- Result slide of a sample `clone_paragraph` call (paragraph 0). -/
def cloneParagraphRes0 : SlidePage := exOk (clone_paragraph sampleSlide 1 0) sampleSlide

/-- Result slide of a sample `clone_paragraph` call (paragraph 2, the spec's
clone-id-assignment example). -/
def cloneParagraphRes2 : SlidePage := exOk (clone_paragraph sampleSlide 1 2) sampleSlide

/-- Result shape of a sample `replace_image_with_table` call. -/
def tableSwapRes : ShapeElement :=
  exOk (replace_image_with_table samplePicShape sampleDoc "x/table_0a1b.png")
    samplePicShape

/-! ## Helper lemmas -/

@[simp] theorem except_throw {ε α : Type} (e : ε) :
    (throw e : Except ε α) = .error e := rfl

@[simp] theorem except_pure {ε α : Type} (a : α) :
    (pure a : Except ε α) = .ok a := rfl

@[simp] theorem except_bind_ok {ε α β : Type} (a : α) (f : α → Except ε β) :
    (Except.ok a >>= f) = f a := rfl

@[simp] theorem except_bind_error {ε α β : Type} (e : ε) (f : α → Except ε β) :
    ((Except.error e : Except ε α) >>= f) = .error e := rfl

@[simp] theorem except_map_ok {ε α β : Type} (f : α → β) (a : α) :
    (f <$> (Except.ok a : Except ε α)) = .ok (f a) := rfl

@[simp] theorem except_map_error {ε α β : Type} (f : α → β) (e : ε) :
    (f <$> (Except.error e : Except ε α)) = .error e := rfl

theorem foldl_max_mem (xs : List Int) (a : Int) : xs.foldl max a ∈ a :: xs := by
  induction xs generalizing a with
  | nil => simp
  | cons b t ih =>
    simp only [List.foldl_cons]
    rcases List.mem_cons.mp (ih (max a b)) with h | h
    · rw [h]
      rcases max_choice a b with hm | hm <;> rw [hm] <;> simp
    · exact List.mem_cons_of_mem _ (List.mem_cons_of_mem _ h)

theorem listMax_mem {l : List Int} (h : l ≠ []) : listMax l ∈ l := by
  cases l with
  | nil => exact absurd rfl h
  | cons x xs => exact foldl_max_mem xs x

theorem find?_append_of_found {α : Type} {l : List α} {c : α} {pr : α → Bool}
    (h : ∃ p ∈ l, pr p = true) :
    (l ++ [c]).find? pr = l.find? pr := by
  obtain ⟨p, hp, hpr⟩ := h
  have hs : (l.find? pr).isSome := List.find?_isSome.mpr ⟨p, hp, hpr⟩
  obtain ⟨v, hv⟩ := Option.isSome_iff_exists.mp hs
  rw [List.find?_append, hv]
  rfl

/-! ## Claims C3 and C9: paragraph addressing -/

/-- **C3.**  For a text shape, paragraph addressing resolves a requested id
with no exact match as follows: with zero valid paragraphs it raises; with a
non-empty valid set it auto-corrects a requested id ≥ the maximum valid id to
the paragraph carrying the maximum valid id, and raises on any requested id
below the maximum (in particular on any negative id when the valid ids are
non-negative); it never auto-corrects downward (the resolved paragraph on the
no-exact-match path always carries the maximum valid id). -/
theorem validate_paragraph_auto_correction
    (shape : ShapeElement) (div_id paragraph_id : Int) (op : String)
    (htf : shape.text_frame.is_textframe = true) :
    (shape.text_frame.paragraphs.filter (fun p => p.idx != -1) = [] →
      validate_paragraph_operation shape div_id paragraph_id op =
        .error (.noValidParagraphs div_id shape.text_frame.paragraphs.length))
    ∧ (∀ valid,
        valid = shape.text_frame.paragraphs.filter (fun p => p.idx != -1) →
        valid ≠ [] →
        (∀ p ∈ shape.text_frame.paragraphs, p.idx ≠ paragraph_id) →
        ((paragraph_id ≥ listMax (valid.map Paragraph.idx) →
            ∃ t, validate_paragraph_operation shape div_id paragraph_id op = .ok t
              ∧ t.idx = listMax (valid.map Paragraph.idx))
          ∧ (paragraph_id < listMax (valid.map Paragraph.idx) →
              validate_paragraph_operation shape div_id paragraph_id op =
                .error (.paragraphNotFound paragraph_id div_id
                  (valid.map Paragraph.idx) op))
          ∧ ((∀ p ∈ valid, 0 ≤ p.idx) → paragraph_id < 0 →
              validate_paragraph_operation shape div_id paragraph_id op =
                .error (.paragraphNotFound paragraph_id div_id
                  (valid.map Paragraph.idx) op)))) := by
  constructor
  · intro hempty
    unfold validate_paragraph_operation
    simp [htf, hempty]
  · intro valid hvalid hne hnomatch
    have hfind : shape.text_frame.paragraphs.find?
        (fun p => p.idx == paragraph_id) = none := by
      rw [List.find?_eq_none]
      intro p hp
      simp only [beq_iff_eq]
      exact hnomatch p hp
    have hmem : listMax (valid.map Paragraph.idx) ∈ valid.map Paragraph.idx :=
      listMax_mem (by simpa using hne)
    obtain ⟨q, hq, hqidx⟩ := List.mem_map.mp hmem
    have hqvalid : q.idx ≠ -1 := by
      have := List.mem_filter.mp (hvalid ▸ hq)
      simpa using this.2
    have hfind2 : ∃ t, valid.find? (fun p => p.idx == listMax (valid.map Paragraph.idx))
        = some t ∧ t.idx = listMax (valid.map Paragraph.idx) := by
      have hsome : (valid.find?
          (fun p => p.idx == listMax (valid.map Paragraph.idx))).isSome := by
        rw [List.find?_isSome]
        exact ⟨q, hq, by simp [hqidx]⟩
      obtain ⟨t, ht⟩ := Option.isSome_iff_exists.mp hsome
      exact ⟨t, ht, by simpa using List.find?_some ht⟩
    obtain ⟨t, ht, htidx⟩ := hfind2
    have htne : t.idx ≠ -1 := by
      rw [htidx, ← hqidx]; rw [← hqidx] at htidx; exact htidx ▸ hqvalid
    refine ⟨?_, ?_, ?_⟩
    · intro hge
      refine ⟨t, ?_, htidx⟩
      unfold validate_paragraph_operation
      simp only [htf, Bool.not_true, Bool.false_eq_true, if_false]
      rw [← hvalid, if_neg (by simpa using hne)]
      simp only [hfind, ← hvalid]
      rw [if_pos (by simp [hne, hge])]
      simp [ht, htne]
    · intro hlt
      unfold validate_paragraph_operation
      simp only [htf, Bool.not_true, Bool.false_eq_true, if_false]
      rw [← hvalid, if_neg (by simpa using hne)]
      simp only [hfind, ← hvalid]
      rw [if_neg (by simp [not_le.mpr hlt])]
      simp
    · intro hpos hneg
      have hqpos : 0 ≤ q.idx := hpos q hq
      have : paragraph_id < listMax (valid.map Paragraph.idx) := by
        rw [← hqidx]; omega
      unfold validate_paragraph_operation
      simp only [htf, Bool.not_true, Bool.false_eq_true, if_false]
      rw [← hvalid, if_neg (by simpa using hne)]
      simp only [hfind, ← hvalid]
      rw [if_neg (by simp [not_le.mpr this])]
      simp

/-- Witness for C3 at a concrete input: valid ids `{0, 1, 2}`, requested id
7 auto-corrects to the paragraph with id 2; requested id −1 fails. -/
theorem validate_paragraph_auto_correction_witness :
    (∃ t, validate_paragraph_operation sampleShape 1 7 "clone" = .ok t
      ∧ t.idx = listMax ((sampleShape.text_frame.paragraphs.filter
          (fun p => p.idx != -1)).map Paragraph.idx))
    ∧ validate_paragraph_operation sampleShape 1 (-1) "clone" =
        .error (.paragraphNotFound (-1) 1
          ((sampleShape.text_frame.paragraphs.filter
            (fun p => p.idx != -1)).map Paragraph.idx) "clone") := by
  constructor
  · exact ((validate_paragraph_auto_correction sampleShape 1 7 "clone"
      (by decide)).2 _ rfl (by decide) (by decide)).1 (by decide)
  · exact (((validate_paragraph_auto_correction sampleShape 1 (-1) "clone"
      (by decide)).2 _ rfl (by decide) (by decide)).2.2) (by decide) (by decide)

/-- **C9, counterexample.**  The sentinel-failure branch of the paragraph
resolver is reachable: on a shape holding a valid paragraph and a sentinel
(`idx = -1`) paragraph, requesting paragraph id −1 passes the valid-set check,
exact-matches the sentinel paragraph, and fails in the final sentinel
branch. -/
theorem sentinel_branch_taken_at_minus_one :
    validate_paragraph_operation sentinelShape 5 (-1) "delete" =
      .error (.invalidParagraph (-1) 5 "delete") := by rfl

/-- **C9, amended.**  The sentinel check is unreachable for every requested
id other than −1: the resolver never returns the sentinel failure unless the
requested paragraph id is exactly the sentinel value −1 (in which case it is
reachable, as the counterexample shows). -/
theorem sentinel_branch_only_for_minus_one
    (shape : ShapeElement) (div_id paragraph_id : Int) (op : String)
    (hpid : paragraph_id ≠ -1) (a b : Int) (c : String) :
    validate_paragraph_operation shape div_id paragraph_id op ≠
      .error (.invalidParagraph a b c) := by
  unfold validate_paragraph_operation
  by_cases htf : shape.text_frame.is_textframe
  · simp only [htf, Bool.not_true, Bool.false_eq_true, if_false]
    by_cases hempty : (shape.text_frame.paragraphs.filter
        (fun p => p.idx != -1)).isEmpty
    · simp [hempty]
    · rw [if_neg hempty]
      cases hfind : shape.text_frame.paragraphs.find?
          (fun p => p.idx == paragraph_id) with
      | some t =>
        have htp : t.idx = paragraph_id := by
          simpa using List.find?_some hfind
        simp [htp, hpid]
      | none =>
        by_cases hcl : (!((shape.text_frame.paragraphs.filter
              (fun p => p.idx != -1)).map Paragraph.idx).isEmpty
            && paragraph_id ≥ listMax ((shape.text_frame.paragraphs.filter
              (fun p => p.idx != -1)).map Paragraph.idx)) = true
        · rw [if_pos hcl]
          cases hfind2 : (shape.text_frame.paragraphs.filter
              (fun p => p.idx != -1)).find?
              (fun p => p.idx == listMax ((shape.text_frame.paragraphs.filter
                (fun p => p.idx != -1)).map Paragraph.idx)) with
          | some t =>
            have htv : t ∈ shape.text_frame.paragraphs.filter
                (fun p => p.idx != -1) := List.mem_of_find?_eq_some hfind2
            have htne : t.idx ≠ -1 := by
              have := List.mem_filter.mp htv
              simpa using this.2
            simp [htne]
          | none => simp
        · rw [if_neg hcl]
          simp
  · simp [htf]

/-- Witness for the amended C9 at a concrete input: requested id 7 never
produces the sentinel failure. -/
theorem sentinel_branch_only_for_minus_one_witness :
    (7 : Int) ≠ -1 ∧
    validate_paragraph_operation sampleShape 1 7 "clone" ≠
      .error (.invalidParagraph 7 1 "clone") :=
  ⟨by decide,
   sentinel_branch_only_for_minus_one sampleShape 1 7 "clone" (by decide) 7 1 "clone"⟩

/-! ## Claims C4 and C6: paragraph operations -/

/-- **C4.**  A successful `clone_paragraph` appends exactly one new paragraph
whose `idx` is the current maximum valid idx plus one and whose `real_idx` is
the length of the paragraph collection before the append; every previously
existing paragraph is kept unchanged (in place, ahead of the clone) and
remains addressable under its old id. -/
theorem clone_paragraph_appends_max_plus_one
    (slide : SlidePage) (div_id paragraph_id : Int) (slide' : SlidePage)
    (h : clone_paragraph slide div_id paragraph_id = .ok slide') :
    ∃ shape target,
      element_index slide div_id = .ok shape ∧
      validate_paragraph_operation shape div_id paragraph_id "clone" = .ok target ∧
      slide' = slide.updateShape div_id { shape with
        text_frame := { shape.text_frame with
          paragraphs := shape.text_frame.paragraphs ++
            [{ target with
               idx := listMax ((shape.text_frame.paragraphs.filter
                 (fun p => p.idx != -1)).map Paragraph.idx) + 1,
               real_idx := shape.text_frame.paragraphs.length }] },
        closures := { shape.closures with
          clone := shape.closures.clone ++
            [⟨.clonePara target.real_idx, some target.real_idx⟩] } } ∧
      (∀ i : Int, (∃ p ∈ shape.text_frame.paragraphs, Paragraph.idx p = i) →
        (shape.text_frame.paragraphs ++
          [{ target with
             idx := listMax ((shape.text_frame.paragraphs.filter
               (fun p : Paragraph => p.idx != -1)).map Paragraph.idx) + 1,
             real_idx := shape.text_frame.paragraphs.length }]).find?
            (fun p : Paragraph => p.idx == i)
          = shape.text_frame.paragraphs.find? (fun p => p.idx == i)) := by
  unfold clone_paragraph at h
  cases he : element_index slide div_id with
  | error e => rw [he] at h; simp at h
  | ok shape =>
    rw [he] at h
    simp only [except_bind_ok] at h
    cases hv : validate_paragraph_operation shape div_id paragraph_id "clone" with
    | error e => rw [hv] at h; simp at h
    | ok target =>
      rw [hv] at h
      simp only [except_bind_ok, except_pure, Except.ok.injEq] at h
      refine ⟨shape, target, rfl, hv, h.symm, ?_⟩
      intro i hi
      apply find?_append_of_found
      obtain ⟨p, hp, hpi⟩ := hi
      exact ⟨p, hp, by simp [hpi]⟩

/-- Witness for C4 at the spec's example: cloning paragraph id 2 in a shape
whose valid ids are `{0, 1, 2}` succeeds, and by the theorem the new
paragraph gets id 3 and the appended physical position, with ids 0, 1, 2
still addressable. -/
theorem clone_paragraph_appends_max_plus_one_witness :
    ∃ shape target,
      element_index sampleSlide 1 = .ok shape ∧
      validate_paragraph_operation shape 1 2 "clone" = .ok target ∧
      cloneParagraphRes2 = sampleSlide.updateShape 1 { shape with
        text_frame := { shape.text_frame with
          paragraphs := shape.text_frame.paragraphs ++
            [{ target with
               idx := listMax ((shape.text_frame.paragraphs.filter
                 (fun p => p.idx != -1)).map Paragraph.idx) + 1,
               real_idx := shape.text_frame.paragraphs.length }] },
        closures := { shape.closures with
          clone := shape.closures.clone ++
            [⟨.clonePara target.real_idx, some target.real_idx⟩] } } ∧
      (∀ i : Int, (∃ p ∈ shape.text_frame.paragraphs, Paragraph.idx p = i) →
        (shape.text_frame.paragraphs ++
          [{ target with
             idx := listMax ((shape.text_frame.paragraphs.filter
               (fun p : Paragraph => p.idx != -1)).map Paragraph.idx) + 1,
             real_idx := shape.text_frame.paragraphs.length }]).find?
            (fun p : Paragraph => p.idx == i)
          = shape.text_frame.paragraphs.find? (fun p => p.idx == i)) :=
  clone_paragraph_appends_max_plus_one sampleSlide 1 2 cloneParagraphRes2 rfl

/-- **C6.**  Each successful `del_paragraph` / `replace_paragraph` /
`clone_paragraph` call appends exactly one `Closure` to the queue of its own
operation kind (DELETE / REPLACE / CLONE respectively), bound to the target
paragraph's `real_idx` as captured at enqueue time, and leaves the other
three queues of the shape untouched.  Closures are inert records in this
model: enqueueing cannot apply them. -/
theorem paragraph_ops_enqueue_single_closure
    (s₁ s₂ s₃ : SlidePage) (d₁ p₁ d₂ p₂ d₃ p₃ : Int) (tx : String)
    (s₁' s₂' s₃' : SlidePage)
    (h₁ : del_paragraph s₁ d₁ p₁ = .ok s₁')
    (h₂ : replace_paragraph s₂ d₂ p₂ tx = .ok s₂')
    (h₃ : clone_paragraph s₃ d₃ p₃ = .ok s₃') :
    (∃ shape target shape',
      element_index s₁ d₁ = .ok shape ∧
      validate_paragraph_operation shape d₁ p₁ "delete" = .ok target ∧
      s₁' = s₁.updateShape d₁ shape' ∧
      shape'.closures.delete = shape.closures.delete ++
        [⟨.delPara target.real_idx, some target.real_idx⟩] ∧
      shape'.closures.replace = shape.closures.replace ∧
      shape'.closures.clone = shape.closures.clone ∧
      shape'.closures.merge = shape.closures.merge)
    ∧ (∃ shape target shape',
      element_index s₂ d₂ = .ok shape ∧
      validate_paragraph_operation shape d₂ p₂ "replace" = .ok target ∧
      s₂' = s₂.updateShape d₂ shape' ∧
      shape'.closures.replace = shape.closures.replace ++
        [⟨.replacePara target.real_idx tx, some target.real_idx⟩] ∧
      shape'.closures.delete = shape.closures.delete ∧
      shape'.closures.clone = shape.closures.clone ∧
      shape'.closures.merge = shape.closures.merge)
    ∧ (∃ shape target shape',
      element_index s₃ d₃ = .ok shape ∧
      validate_paragraph_operation shape d₃ p₃ "clone" = .ok target ∧
      s₃' = s₃.updateShape d₃ shape' ∧
      shape'.closures.clone = shape.closures.clone ++
        [⟨.clonePara target.real_idx, some target.real_idx⟩] ∧
      shape'.closures.delete = shape.closures.delete ∧
      shape'.closures.replace = shape.closures.replace ∧
      shape'.closures.merge = shape.closures.merge) := by
  refine ⟨?_, ?_, ?_⟩
  · unfold del_paragraph at h₁
    cases he : element_index s₁ d₁ with
    | error e => rw [he] at h₁; simp at h₁
    | ok shape =>
      rw [he] at h₁
      simp only [except_bind_ok] at h₁
      cases hv : validate_paragraph_operation shape d₁ p₁ "delete" with
      | error e => rw [hv] at h₁; simp at h₁
      | ok target =>
        rw [hv] at h₁
        simp only [except_bind_ok, except_pure, Except.ok.injEq] at h₁
        exact ⟨shape, target, _, rfl, hv, h₁.symm, rfl, rfl, rfl, rfl⟩
  · unfold replace_paragraph at h₂
    cases he : element_index s₂ d₂ with
    | error e => rw [he] at h₂; simp at h₂
    | ok shape =>
      rw [he] at h₂
      simp only [except_bind_ok] at h₂
      cases hv : validate_paragraph_operation shape d₂ p₂ "replace" with
      | error e => rw [hv] at h₂; simp at h₂
      | ok target =>
        rw [hv] at h₂
        simp only [except_bind_ok, except_pure, Except.ok.injEq] at h₂
        exact ⟨shape, target, _, rfl, hv, h₂.symm, rfl, rfl, rfl, rfl⟩
  · unfold clone_paragraph at h₃
    cases he : element_index s₃ d₃ with
    | error e => rw [he] at h₃; simp at h₃
    | ok shape =>
      rw [he] at h₃
      simp only [except_bind_ok] at h₃
      cases hv : validate_paragraph_operation shape d₃ p₃ "clone" with
      | error e => rw [hv] at h₃; simp at h₃
      | ok target =>
        rw [hv] at h₃
        simp only [except_bind_ok, except_pure, Except.ok.injEq] at h₃
        exact ⟨shape, target, _, rfl, hv, h₃.symm, rfl, rfl, rfl, rfl⟩

/-- Witness for C6 at concrete inputs: one successful call of each paragraph
operation on the sample slide. -/
theorem paragraph_ops_enqueue_single_closure_witness :
    (∃ shape target shape',
      element_index sampleSlide 1 = .ok shape ∧
      validate_paragraph_operation shape 1 1 "delete" = .ok target ∧
      delParagraphRes = sampleSlide.updateShape 1 shape' ∧
      shape'.closures.delete = shape.closures.delete ++
        [⟨.delPara target.real_idx, some target.real_idx⟩] ∧
      shape'.closures.replace = shape.closures.replace ∧
      shape'.closures.clone = shape.closures.clone ∧
      shape'.closures.merge = shape.closures.merge)
    ∧ (∃ shape target shape',
      element_index sampleSlide 1 = .ok shape ∧
      validate_paragraph_operation shape 1 0 "replace" = .ok target ∧
      replaceParagraphRes = sampleSlide.updateShape 1 shape' ∧
      shape'.closures.replace = shape.closures.replace ++
        [⟨.replacePara target.real_idx "X", some target.real_idx⟩] ∧
      shape'.closures.delete = shape.closures.delete ∧
      shape'.closures.clone = shape.closures.clone ∧
      shape'.closures.merge = shape.closures.merge)
    ∧ (∃ shape target shape',
      element_index sampleSlide 1 = .ok shape ∧
      validate_paragraph_operation shape 1 0 "clone" = .ok target ∧
      cloneParagraphRes0 = sampleSlide.updateShape 1 shape' ∧
      shape'.closures.clone = shape.closures.clone ++
        [⟨.clonePara target.real_idx, some target.real_idx⟩] ∧
      shape'.closures.delete = shape.closures.delete ∧
      shape'.closures.replace = shape.closures.replace ∧
      shape'.closures.merge = shape.closures.merge) :=
  paragraph_ops_enqueue_single_closure sampleSlide sampleSlide sampleSlide
    1 1 1 0 1 0 "X" delParagraphRes replaceParagraphRes cloneParagraphRes0
    rfl rfl rfl

/-! ## Claims C7 and C8: image replacement -/

theorem replace_image_with_table_ok_closures
    {shape : ShapeElement} {doc : Document} {image_path : String}
    {shape' : ShapeElement}
    (h : replace_image_with_table shape doc image_path = .ok shape') :
    ∃ table cells,
      doc.get_table image_path = .ok table ∧ table.cells = some cells ∧
      shape'.closures.replace = shape.closures.replace ++
        [Closure.mk (.addTable cells) none] ∧
      shape'.closures.merge = shape.closures.merge ++
        [Closure.mk (.mergeCells table.merge_area) none] ∧
      shape'.closures.delete = shape.closures.delete ∧
      shape'.closures.clone = shape.closures.clone := by
  unfold replace_image_with_table at h
  split at h
  · simp at h
  · rename_i table heq
    dsimp only at h
    split at h
    · simp at h
    · rename_i cells hcells
      split at h
      · simp at h
      · rename_i row0 rest
        simp only [Except.ok.injEq] at h
        subst h
        exact ⟨table, row0 :: rest, heq, hcells, rfl, rfl, rfl, rfl⟩

/-- **C7.**  When the image path matches the rendered-table naming
convention, `replace_image` redirects to structured table replacement: on
success it enqueues exactly one REPLACE closure and one MERGE closure on the
target shape (other queues untouched); if the redirection raises any
exception it falls back to the plain image-swap path (applied to the shape as
mutated so far) instead of propagating the error — in every case the call
returns successfully, never a hard failure from the table path. -/
theorem replace_image_table_redirect_fallback
    (fs : String → Bool) (imgSize : String → Nat × Nat)
    (slide : SlidePage) (doc : Document) (img_id : Int) (image_path : String)
    (shape : ShapeElement)
    (htab : tableRegexMatch image_path = true)
    (hfs : fs image_path = true)
    (helem : element_index slide img_id = .ok shape)
    (hpic : shape.isPicture = true) :
    (∀ shape', replace_image_with_table shape doc image_path = .ok shape' →
      replace_image fs imgSize slide doc img_id image_path =
        .ok (slide.updateShape img_id shape') ∧
      ∃ table cells,
        doc.get_table image_path = .ok table ∧ table.cells = some cells ∧
        shape'.closures.replace = shape.closures.replace ++
          [Closure.mk (.addTable cells) none] ∧
        shape'.closures.merge = shape.closures.merge ++
          [Closure.mk (.mergeCells table.merge_area) none] ∧
        shape'.closures.delete = shape.closures.delete ∧
        shape'.closures.clone = shape.closures.clone)
    ∧ (∀ e shapeP,
        replace_image_with_table shape doc image_path = .error (e, shapeP) →
        replace_image fs imgSize slide doc img_id image_path =
          .ok (slide.updateShape img_id (image_swap imgSize shapeP image_path)))
    ∧ ∃ s', replace_image fs imgSize slide doc img_id image_path = .ok s' := by
  have hbase : replace_image fs imgSize slide doc img_id image_path =
      match replace_image_with_table shape doc image_path with
      | .ok shape' => pure (slide.updateShape img_id shape')
      | .error (_, shapeP) =>
        pure (slide.updateShape img_id (image_swap imgSize shapeP image_path)) := by
    unfold replace_image
    rw [helem]
    simp [hfs, hpic, htab]
  refine ⟨?_, ?_, ?_⟩
  · intro shape' hok
    rw [hbase, hok]
    exact ⟨rfl, replace_image_with_table_ok_closures hok⟩
  · intro e shapeP herr
    rw [hbase, herr]
    rfl
  · rw [hbase]
    cases hr : replace_image_with_table shape doc image_path with
    | ok shape' => exact ⟨_, rfl⟩
    | error p => cases p with | mk e shapeP => exact ⟨_, rfl⟩

/-- Witness for C7 at a concrete input: a rendered-table path whose table is
present in the document store (success branch of the redirection). -/
theorem replace_image_table_redirect_fallback_witness :
    replace_image sampleFs sampleImgSize sampleSlide sampleDoc 2
        "x/table_0a1b.png" =
      .ok (sampleSlide.updateShape 2 tableSwapRes) ∧
    ∃ table cells,
      sampleDoc.get_table "x/table_0a1b.png" = .ok table ∧
      table.cells = some cells ∧
      tableSwapRes.closures.replace = samplePicShape.closures.replace ++
        [Closure.mk (.addTable cells) none] ∧
      tableSwapRes.closures.merge = samplePicShape.closures.merge ++
        [Closure.mk (.mergeCells table.merge_area) none] ∧
      tableSwapRes.closures.delete = samplePicShape.closures.delete ∧
      tableSwapRes.closures.clone = samplePicShape.closures.clone :=
  (replace_image_table_redirect_fallback sampleFs sampleImgSize sampleSlide
    sampleDoc 2 "x/table_0a1b.png" samplePicShape rfl rfl rfl rfl).1
    tableSwapRes rfl

/-- **C8.**  On the plain (non-table) image-swap path, with
`r = min(width / image_width, height / image_height)`, `replace_image` sets
the shape's width to `image_width * r`, its height to `image_height * r`,
increases its top by half of (original height − new height), leaves its left
unchanged, and records the new image path; under positive image dimensions
and non-negative shape dimensions the new size stays within the original
bounding box. -/
theorem replace_image_geometry
    (fs : String → Bool) (imgSize : String → Nat × Nat)
    (slide : SlidePage) (doc : Document) (img_id : Int) (image_path : String)
    (shape : ShapeElement)
    (hfs : fs image_path = true)
    (helem : element_index slide img_id = .ok shape)
    (hpic : shape.isPicture = true)
    (hnotab : tableRegexMatch image_path = false) :
    replace_image fs imgSize slide doc img_id image_path =
      .ok (slide.updateShape img_id (image_swap imgSize shape image_path))
    ∧ (image_swap imgSize shape image_path).width =
        ((imgSize image_path).1 : ℚ) *
          min (shape.width / ((imgSize image_path).1 : ℚ))
            (shape.height / ((imgSize image_path).2 : ℚ))
    ∧ (image_swap imgSize shape image_path).height =
        ((imgSize image_path).2 : ℚ) *
          min (shape.width / ((imgSize image_path).1 : ℚ))
            (shape.height / ((imgSize image_path).2 : ℚ))
    ∧ (image_swap imgSize shape image_path).top =
        shape.top + (shape.height - (image_swap imgSize shape image_path).height) / 2
    ∧ (image_swap imgSize shape image_path).left = shape.left
    ∧ (image_swap imgSize shape image_path).img_path = image_path
    ∧ (0 < (imgSize image_path).1 → 0 < (imgSize image_path).2 →
        0 ≤ shape.width → 0 ≤ shape.height →
        (image_swap imgSize shape image_path).width ≤ shape.width ∧
        (image_swap imgSize shape image_path).height ≤ shape.height) := by
  refine ⟨?_, rfl, rfl, rfl, rfl, rfl, ?_⟩
  · unfold replace_image
    rw [helem]
    simp [hfs, hpic, hnotab]
  · intro hw hh hsw hsh
    have hw' : (0 : ℚ) < ((imgSize image_path).1 : ℚ) := by exact_mod_cast hw
    have hh' : (0 : ℚ) < ((imgSize image_path).2 : ℚ) := by exact_mod_cast hh
    constructor
    · show ((imgSize image_path).1 : ℚ) * _ ≤ shape.width
      calc ((imgSize image_path).1 : ℚ) *
            min (shape.width / ((imgSize image_path).1 : ℚ))
              (shape.height / ((imgSize image_path).2 : ℚ))
          ≤ ((imgSize image_path).1 : ℚ) *
            (shape.width / ((imgSize image_path).1 : ℚ)) := by
            exact mul_le_mul_of_nonneg_left (min_le_left _ _) (le_of_lt hw')
        _ = shape.width := by field_simp
    · show ((imgSize image_path).2 : ℚ) * _ ≤ shape.height
      calc ((imgSize image_path).2 : ℚ) *
            min (shape.width / ((imgSize image_path).1 : ℚ))
              (shape.height / ((imgSize image_path).2 : ℚ))
          ≤ ((imgSize image_path).2 : ℚ) *
            (shape.height / ((imgSize image_path).2 : ℚ)) := by
            exact mul_le_mul_of_nonneg_left (min_le_right _ _) (le_of_lt hh')
        _ = shape.height := by field_simp

/-- Witness for C8 at a concrete input: a 2 × 1 image into a 4 × 3 picture
shape scales by `r = 2` to 4 × 2, the top moves down by 1/2, and the left is
unchanged. -/
theorem replace_image_geometry_witness :
    replace_image sampleFs sampleImgSize sampleSlide sampleDoc 2 "img.png" =
      .ok (sampleSlide.updateShape 2
        (image_swap sampleImgSize samplePicShape "img.png"))
    ∧ (image_swap sampleImgSize samplePicShape "img.png").width = 4
    ∧ (image_swap sampleImgSize samplePicShape "img.png").height = 2
    ∧ (image_swap sampleImgSize samplePicShape "img.png").top = 1 / 2
    ∧ (image_swap sampleImgSize samplePicShape "img.png").left =
        samplePicShape.left
    ∧ (image_swap sampleImgSize samplePicShape "img.png").width ≤
        samplePicShape.width
    ∧ (image_swap sampleImgSize samplePicShape "img.png").height ≤
        samplePicShape.height := by
  have h := replace_image_geometry sampleFs sampleImgSize sampleSlide sampleDoc
    2 "img.png" samplePicShape rfl rfl rfl rfl
  have hfit := h.2.2.2.2.2.2 (by decide) (by decide) (by norm_num [samplePicShape])
    (by norm_num [samplePicShape])
  refine ⟨h.1, ?_, ?_, ?_, ?_, hfit.1, hfit.2⟩ <;>
    norm_num [image_swap, Pt, samplePicShape, sampleImgSize, min_def]

/-! ## Executor lemmas -/

theorem runLines_nil (ev : EvalOracle) (calls : List String) (i : Nat)
    (st : ExecState) (fc fb : Bool) :
    runLines ev calls [] i st fc fb = .done st fc fb := rfl

theorem runLines_cons (ev : EvalOracle) (calls : List String) (l : String)
    (rest : List String) (i : Nat) (st : ExecState) (fc fb : Bool) :
    runLines ev calls (l :: rest) i st fc fb =
      (match stepLine ev calls i l st fc fb with
       | .cont st' fc' fb' => runLines ev calls rest (i + 1) st' fc' fb'
       | .err st' a t => .failed st' a t
       | .crash st' e => .crashed st' e) := rfl

theorem modifyLast_length (f : α → α) (l : List α) :
    (modifyLast f l).length = l.length := by
  induction l with
  | nil => rfl
  | cons a t ih =>
    cases t with
    | nil => rfl
    | cons b t2 => simp only [modifyLast, List.length_cons] at ih ⊢; omega

theorem errState_slide (st : ExecState) (e : SlideEditError) :
    (errState st e).slide = st.slide := rfl

theorem errState_code_len (st : ExecState) (e : SlideEditError) :
    (errState st e).code_history.length = st.code_history.length := by
  unfold errState
  by_cases hc : st.code_history.isEmpty <;> simp [hc, modifyLast_length]

theorem raiseAt_err {calls : List String} {i : Nat} {line : String}
    {st : ExecState} {fb : Bool} {e : SlideEditError} {st' : ExecState}
    {a : String} {t : SlideEditError}
    (h : raiseAt calls i line st fb e = .err st' a t) :
    st' = errState st e ∧ t = e := by
  unfold raiseAt at h
  split at h
  · cases h; exact ⟨rfl, rfl⟩
  · exact StepOut.noConfusion h

theorem raiseAt_crash {calls : List String} {i : Nat} {line : String}
    {st : ExecState} {fb : Bool} {e : SlideEditError} {st' : ExecState}
    {e' : SlideEditError}
    (h : raiseAt calls i line st fb e = .crash st' e') :
    st' = st ∧ e' = e := by
  unfold raiseAt at h
  split at h
  · exact StepOut.noConfusion h
  · cases h; exact ⟨rfl, rfl⟩

theorem raiseAt_core_congr (calls calls' : List String) (i : Nat)
    (line : String) (st : ExecState) (fb : Bool) (e : SlideEditError) :
    (raiseAt calls i line st fb e).core = (raiseAt calls' i line st fb e).core := by
  unfold raiseAt
  cases fb
  · rfl
  · rfl

theorem stepLine_err_slide {ev : EvalOracle} {calls : List String} {i : Nat}
    {line : String} {st : ExecState} {fc fb : Bool} {st' : ExecState}
    {a : String} {t : SlideEditError}
    (h : stepLine ev calls i line st fc fb = .err st' a t) :
    st'.slide = st.slide := by
  unfold stepLine at h
  dsimp only at h
  split at h
  · rw [(raiseAt_err h).1]; rfl
  · split at h
    · rw [(raiseAt_err h).1]; rfl
    · split at h
      · exact StepOut.noConfusion h
      · split at h
        · exact StepOut.noConfusion h
        · split at h
          · rw [(raiseAt_err h).1]; rfl
          · split at h
            · exact StepOut.noConfusion h
            · rw [(raiseAt_err h).1]; rfl

theorem stepLine_crash_state {ev : EvalOracle} {calls : List String} {i : Nat}
    {line : String} {st : ExecState} {fc fb : Bool} {st' : ExecState}
    {e : SlideEditError}
    (h : stepLine ev calls i line st fc fb = .crash st' e) :
    st' = st := by
  unfold stepLine at h
  dsimp only at h
  split at h
  · exact (raiseAt_crash h).1
  · split at h
    · exact (raiseAt_crash h).1
    · split at h
      · exact StepOut.noConfusion h
      · split at h
        · exact StepOut.noConfusion h
        · split at h
          · exact (raiseAt_crash h).1
          · split at h
            · exact StepOut.noConfusion h
            · simp [raiseAt] at h

theorem stepLine_core_congr (ev : EvalOracle) {calls calls' : List String}
    (h : calls.length = calls'.length) (i : Nat) (line : String)
    (st : ExecState) (fc fb : Bool) :
    (stepLine ev calls i line st fc fb).core =
      (stepLine ev calls' i line st fc fb).core := by
  unfold stepLine
  rw [h]
  by_cases h1 : (i == calls'.length - 1 && !fc) = true
  · rw [if_pos h1, if_pos h1]
    exact raiseAt_core_congr calls calls' i line st fb .noCodeBlock
  · rw [if_neg h1, if_neg h1]
    by_cases h2 : pyStartsWith line "def" = true
    · rw [if_pos h2, if_pos h2]
      exact raiseAt_core_congr calls calls' i line st fb .defNotAllowed
    · rw [if_neg h2, if_neg h2]
      by_cases h3 : pyStartsWith line "#" = true
      · rw [if_pos h3, if_pos h3]
      · rw [if_neg h3, if_neg h3]
        by_cases h4 : (!function_regex_match line) = true
        · rw [if_pos h4, if_pos h4]
        · rw [if_neg h4, if_neg h4]
          by_cases h5 : (!registered_functions.contains (funcName line)) = true
          · rw [if_pos h5, if_pos h5]
            exact raiseAt_core_congr calls calls' i line st true _
          · rw [if_neg h5, if_neg h5]
            dsimp only
            cases hev : ev (funcName line) line st.slide with
            | ok slide' => rfl
            | error e => exact raiseAt_core_congr calls calls' i line _ true _

theorem runLines_core_congr (ev : EvalOracle) {calls calls' : List String}
    (h : calls.length = calls'.length) :
    ∀ (xs : List String) (i : Nat) (st : ExecState) (fc fb : Bool),
      (runLines ev calls xs i st fc fb).core =
        (runLines ev calls' xs i st fc fb).core := by
  intro xs
  induction xs with
  | nil => intro i st fc fb; rfl
  | cons l rest ih =>
    intro i st fc fb
    simp only [runLines]
    have hc := stepLine_core_congr ev h i l st fc fb
    cases h1 : stepLine ev calls i l st fc fb with
    | cont st1 fc1 fb1 =>
      cases h2 : stepLine ev calls' i l st fc fb with
      | cont st2 fc2 fb2 =>
        rw [h1, h2] at hc
        simp only [StepOut.core, CoreOut.cont.injEq] at hc
        obtain ⟨hst, hfc, hfb⟩ := hc
        subst hst; subst hfc; subst hfb
        exact ih (i + 1) st1 fc1 fb1
      | err st2 a2 t2 => rw [h1, h2] at hc; simp [StepOut.core] at hc
      | crash st2 e2 => rw [h1, h2] at hc; simp [StepOut.core] at hc
    | err st1 a1 t1 =>
      cases h2 : stepLine ev calls' i l st fc fb with
      | cont st2 fc2 fb2 => rw [h1, h2] at hc; simp [StepOut.core] at hc
      | err st2 a2 t2 =>
        rw [h1, h2] at hc
        simp only [StepOut.core, CoreOut.err.injEq] at hc
        obtain ⟨hst, ht⟩ := hc
        subst hst; subst ht
        rfl
      | crash st2 e2 => rw [h1, h2] at hc; simp [StepOut.core] at hc
    | crash st1 e1 =>
      cases h2 : stepLine ev calls' i l st fc fb with
      | cont st2 fc2 fb2 => rw [h1, h2] at hc; simp [StepOut.core] at hc
      | err st2 a2 t2 => rw [h1, h2] at hc; simp [StepOut.core] at hc
      | crash st2 e2 =>
        rw [h1, h2] at hc
        simp only [StepOut.core, CoreOut.crash.injEq] at hc
        obtain ⟨hst, he⟩ := hc
        subst hst; subst he
        rfl

theorem runLines_append_done (ev : EvalOracle) (calls : List String)
    (xs ys : List String) :
    ∀ (i : Nat) (st : ExecState) (fc fb : Bool) (st' : ExecState)
      (fc' fb' : Bool),
      runLines ev calls xs i st fc fb = .done st' fc' fb' →
      runLines ev calls (xs ++ ys) i st fc fb =
        runLines ev calls ys (i + xs.length) st' fc' fb' := by
  induction xs with
  | nil =>
    intro i st fc fb st' fc' fb' hd
    cases hd
    simp [runLines]
  | cons l rest ih =>
    intro i st fc fb st' fc' fb' hd
    rw [runLines_cons] at hd
    rw [List.cons_append, runLines_cons]
    cases hs : stepLine ev calls i l st fc fb with
    | cont st2 fc2 fb2 =>
      rw [hs] at hd
      dsimp only at hd ⊢
      rw [ih (i + 1) st2 fc2 fb2 st' fc' fb' hd]
      have harith : i + 1 + rest.length = i + (l :: rest).length := by
        simp only [List.length_cons]; omega
      rw [harith]
    | err st2 a t =>
      rw [hs] at hd
      exact LoopOut.noConfusion hd
    | crash st2 e =>
      rw [hs] at hd
      exact LoopOut.noConfusion hd

theorem runLines_split_err (ev : EvalOracle) (pre : List String)
    (line : String) (post : List String) (st0 : ExecState) (fc : Bool)
    {st1 : ExecState} {fc1 fb1 : Bool} {st2 : ExecState} {a : String}
    {tr : SlideEditError}
    (hpre : runLines ev (pre ++ line :: post) pre 0 st0 fc false =
      .done st1 fc1 fb1)
    (hstep : stepLine ev (pre ++ line :: post) pre.length line st1 fc1 fb1 =
      .err st2 a tr) :
    runLines ev (pre ++ line :: post) (pre ++ line :: post) 0 st0 fc false =
      .failed st2 a tr := by
  rw [runLines_append_done ev (pre ++ line :: post) pre (line :: post) 0 st0
    fc false st1 fc1 fb1 hpre]
  simp only [Nat.zero_add]
  rw [runLines_cons, hstep]

theorem runLines_split_crash (ev : EvalOracle) (pre : List String)
    (line : String) (post : List String) (st0 : ExecState) (fc : Bool)
    {st1 : ExecState} {fc1 fb1 : Bool} {st2 : ExecState}
    {e : SlideEditError}
    (hpre : runLines ev (pre ++ line :: post) pre 0 st0 fc false =
      .done st1 fc1 fb1)
    (hstep : stepLine ev (pre ++ line :: post) pre.length line st1 fc1 fb1 =
      .crash st2 e) :
    runLines ev (pre ++ line :: post) (pre ++ line :: post) 0 st0 fc false =
      .crashed st2 e := by
  rw [runLines_append_done ev (pre ++ line :: post) pre (line :: post) 0 st0
    fc false st1 fc1 fb1 hpre]
  simp only [Nat.zero_add]
  rw [runLines_cons, hstep]

/-! ## Claims C1, C2, C5, C10: the command executor -/

/-- **C1, counterexample to the original claim.**  A batch whose first line
raises (a `def` line, at 0-based line 0 of 2) does *not* make the call return
an (annotated, trace) pair: no operation-call line has bound the handler's
`func` local yet, so the except handler raises `UnboundLocalError` and
`execute_actions` crashes. -/
theorem fail_fast_pair_counterexample :
    execute_actions sampleEv "def foo(1)\ndel_image(1)" sampleSt false =
      .crash ⟨sampleSlide,
        [("api_call_error", 0, "def foo(1)\ndel_image(1)")], [], []⟩
        .defNotAllowed := by decide

/-- **C1, amended.**  `execute_actions` is fail-fast: if every batch line is
processed without error the call returns no error signal; if processing the
prefix succeeds and some line then raises, execution stops there, the
in-memory state reached by the successful prefix is kept (no rollback), and
the lines after the failing one are never evaluated — replacing them by any
lines of equal count leaves the outcome's state and trace unchanged (only the
annotated text can differ).  The outcome of the failure depends on whether an
operation-call line has bound the handler's `func` local: if so, the call
returns the (annotated listing, trace) pair; if the failure precedes every
operation-call line, the except handler itself raises `UnboundLocalError`
and the call crashes with the state exactly as it was at the raise. -/
theorem execute_actions_fail_fast
    (ev : EvalOracle) (actions : String) (st : ExecState) (fc : Bool) :
    (∀ st' fc' fb',
        runLines ev (pySplitLines (pyStrip actions))
          (pySplitLines (pyStrip actions)) 0 (initState st actions) fc false =
          .done st' fc' fb' →
        execute_actions ev actions st fc = .ret (finalizeState st') none)
    ∧ (∀ pre line post st1 fc1 fb1 st2 a tr,
        pySplitLines (pyStrip actions) = pre ++ line :: post →
        runLines ev (pre ++ line :: post) pre 0 (initState st actions) fc
          false = .done st1 fc1 fb1 →
        stepLine ev (pre ++ line :: post) pre.length line st1 fc1 fb1 =
          .err st2 a tr →
        execute_actions ev actions st fc = .ret st2 (some (a, tr))
        ∧ st2.slide = st1.slide
        ∧ (∀ post', post'.length = post.length →
            (runLines ev (pre ++ line :: post') (pre ++ line :: post') 0
              (initState st actions) fc false).core = .err st2 tr))
    ∧ (∀ pre line post st1 fc1 fb1 st2 e,
        pySplitLines (pyStrip actions) = pre ++ line :: post →
        runLines ev (pre ++ line :: post) pre 0 (initState st actions) fc
          false = .done st1 fc1 fb1 →
        stepLine ev (pre ++ line :: post) pre.length line st1 fc1 fb1 =
          .crash st2 e →
        execute_actions ev actions st fc = .crash st2 e
        ∧ st2 = st1
        ∧ (∀ post', post'.length = post.length →
            (runLines ev (pre ++ line :: post') (pre ++ line :: post') 0
              (initState st actions) fc false).core = .crash st2 e)) := by
  refine ⟨?_, ?_, ?_⟩
  · intro st' fc' fb' hdone
    unfold execute_actions
    dsimp only
    rw [hdone]
  · intro pre line post st1 fc1 fb1 st2 a tr hsplit hpre hstep
    refine ⟨?_, stepLine_err_slide hstep, ?_⟩
    · unfold execute_actions
      dsimp only
      rw [hsplit, runLines_split_err ev pre line post (initState st actions)
        fc hpre hstep]
    · intro post' hlenp
      have hlen2 : (pre ++ line :: post).length =
          (pre ++ line :: post').length := by simp [hlenp]
      have hcore := runLines_core_congr ev hlen2 pre 0 (initState st actions)
        fc false
      rw [hpre] at hcore
      cases hpre' : runLines ev (pre ++ line :: post') pre 0
          (initState st actions) fc false with
      | failed s aa tt => rw [hpre'] at hcore; simp [LoopOut.core] at hcore
      | crashed s ee => rw [hpre'] at hcore; simp [LoopOut.core] at hcore
      | done st1' fc1' fb1' =>
        rw [hpre'] at hcore
        simp only [LoopOut.core, CoreOut.cont.injEq] at hcore
        obtain ⟨hst, hfc, hfb⟩ := hcore
        subst hst; subst hfc; subst hfb
        have hstepc := stepLine_core_congr ev hlen2 pre.length line st1 fc1 fb1
        rw [hstep] at hstepc
        cases hstep2 : stepLine ev (pre ++ line :: post') pre.length line
            st1 fc1 fb1 with
        | cont s2 f2 b2 => rw [hstep2] at hstepc; simp [StepOut.core] at hstepc
        | crash s2 e2 => rw [hstep2] at hstepc; simp [StepOut.core] at hstepc
        | err st2' a' tr' =>
          rw [hstep2] at hstepc
          simp only [StepOut.core, CoreOut.err.injEq] at hstepc
          obtain ⟨hst2, htr⟩ := hstepc
          rw [runLines_split_err ev pre line post' (initState st actions) fc
            hpre' hstep2]
          simp only [LoopOut.core]
          rw [← hst2, ← htr]
  · intro pre line post st1 fc1 fb1 st2 e hsplit hpre hstep
    refine ⟨?_, stepLine_crash_state hstep, ?_⟩
    · unfold execute_actions
      dsimp only
      rw [hsplit, runLines_split_crash ev pre line post (initState st actions)
        fc hpre hstep]
    · intro post' hlenp
      have hlen2 : (pre ++ line :: post).length =
          (pre ++ line :: post').length := by simp [hlenp]
      have hcore := runLines_core_congr ev hlen2 pre 0 (initState st actions)
        fc false
      rw [hpre] at hcore
      cases hpre' : runLines ev (pre ++ line :: post') pre 0
          (initState st actions) fc false with
      | failed s aa tt => rw [hpre'] at hcore; simp [LoopOut.core] at hcore
      | crashed s ee => rw [hpre'] at hcore; simp [LoopOut.core] at hcore
      | done st1' fc1' fb1' =>
        rw [hpre'] at hcore
        simp only [LoopOut.core, CoreOut.cont.injEq] at hcore
        obtain ⟨hst, hfc, hfb⟩ := hcore
        subst hst; subst hfc; subst hfb
        have hstepc := stepLine_core_congr ev hlen2 pre.length line st1 fc1 fb1
        rw [hstep] at hstepc
        cases hstep2 : stepLine ev (pre ++ line :: post') pre.length line
            st1 fc1 fb1 with
        | cont s2 f2 b2 => rw [hstep2] at hstepc; simp [StepOut.core] at hstepc
        | err s2 a2 t2 => rw [hstep2] at hstepc; simp [StepOut.core] at hstepc
        | crash st2' e' =>
          rw [hstep2] at hstepc
          simp only [StepOut.core, CoreOut.crash.injEq] at hstepc
          obtain ⟨hst2, he⟩ := hstepc
          rw [runLines_split_crash ev pre line post' (initState st actions) fc
            hpre' hstep2]
          simp only [LoopOut.core]
          rw [← hst2, ← he]

/-- Witness for the amended C1 at concrete inputs: a batch failing at its
second line (after a parsed operation call bound `func`) returns the
annotated pair with the prefix mutation kept; a batch with no failing line
returns no error signal; a batch whose first line raises before any
operation-call line crashes with the state as of the raise. -/
theorem execute_actions_fail_fast_witness :
    execute_actions sampleEv "del_image(1)\nbad_func(2)\nrest" sampleSt false =
      .ret ⟨sampleSlide,
        [("api_call_error", 0, "del_image(1)\nbad_func(2)\nrest")],
        [],
        [("code_run_correct", "del_image(1)",
          some (.functionNotDefined "bad_func"))]⟩
       (some ("\n--> Error Line: bad_func(2)\nrest",
         .functionNotDefined "bad_func"))
    ∧ execute_actions sampleEv "del_image(1)\ndel_image(2)" sampleSt false =
      .ret ⟨sampleSlide,
        [("api_call_correct", 0, "del_image(1)\ndel_image(2)")],
        [],
        [("code_run_correct", "del_image(1)", none),
         ("code_run_correct", "del_image(2)", none)]⟩ none
    ∧ execute_actions sampleEv "def bar(2)\nrest" sampleSt false =
      .crash ⟨sampleSlide, [("api_call_error", 0, "def bar(2)\nrest")],
        [], []⟩ .defNotAllowed := by
  refine ⟨?_, ?_, ?_⟩
  · exact (((execute_actions_fail_fast sampleEv
      "del_image(1)\nbad_func(2)\nrest" sampleSt false).2.1)
      ["del_image(1)"] "bad_func(2)" ["rest"]
      ⟨sampleSlide,
        [("api_call_error", 0, "del_image(1)\nbad_func(2)\nrest")],
        [],
        [("code_run_correct", "del_image(1)", none)]⟩ true true
      ⟨sampleSlide,
        [("api_call_error", 0, "del_image(1)\nbad_func(2)\nrest")],
        [],
        [("code_run_correct", "del_image(1)",
          some (.functionNotDefined "bad_func"))]⟩
      "\n--> Error Line: bad_func(2)\nrest"
      (.functionNotDefined "bad_func")
      (by decide) (by decide) (by decide)).1
  · exact ((execute_actions_fail_fast sampleEv
      "del_image(1)\ndel_image(2)" sampleSt false).1
      ⟨sampleSlide,
        [("api_call_error", 0, "del_image(1)\ndel_image(2)")],
        [],
        [("code_run_correct", "del_image(1)", none),
         ("code_run_correct", "del_image(2)", none)]⟩ true true
      (by decide))
  · exact (((execute_actions_fail_fast sampleEv
      "def bar(2)\nrest" sampleSt false).2.2)
      [] "def bar(2)" ["rest"]
      ⟨sampleSlide, [("api_call_error", 0, "def bar(2)\nrest")], [], []⟩
      false false
      ⟨sampleSlide, [("api_call_error", 0, "def bar(2)\nrest")], [], []⟩
      .defNotAllowed
      (by decide) (by decide) (by decide)).1

/-- **C2, failing input.**  At the batch
`"del_image(1)\nbad_func(2)\nrest"` (failure at 0-based line 1, with `func`
bound by line 0 so the handler completes) the annotated listing returned by
`execute_actions` omits line 0 (`del_image(1)`): the source slices
`api_calls[: line_idx - 1]` instead of `api_calls[: line_idx]`, so the
annotated text is not "all lines before the failing line, the marked line,
all lines after". -/
theorem annotated_listing_drops_previous_line :
    execute_actions sampleEv "del_image(1)\nbad_func(2)\nrest" sampleSt
      false =
      .ret ⟨sampleSlide,
        [("api_call_error", 0, "del_image(1)\nbad_func(2)\nrest")],
        [],
        [("code_run_correct", "del_image(1)",
          some (.functionNotDefined "bad_func"))]⟩
       (some ("\n--> Error Line: bad_func(2)\nrest",
         .functionNotDefined "bad_func"))
    ∧ "\n--> Error Line: bad_func(2)\nrest" ≠
        "del_image(1)\n--> Error Line: bad_func(2)\nrest" :=
  ⟨by decide, by decide⟩

/-- **C5, failing input.**  A batch of one comment line and one prose line
(no line matches the operation-call shape, `found_code = false`): the
no-executable-command `SlideEditError` is raised at the last line, but since
no line ever bound the handler's `func` local, the except handler raises
`UnboundLocalError` and the call crashes instead of returning the diagnostic
pair.  The slide is still never mutated and no operation is invoked (no
code-history entry, hence no closure enqueued). -/
theorem prose_only_batch_crashes :
    ∃ st', execute_actions sampleEv "# comment\nsome prose" sampleSt false =
        .crash st' .noCodeBlock
      ∧ st'.slide = sampleSt.slide
      ∧ st'.code_history = sampleSt.code_history :=
  ⟨⟨sampleSlide, [("api_call_error", 0, "# comment\nsome prose")],
    [("comment_error", "# comment", none)], []⟩,
   by decide, by decide, by decide⟩

/-- **C10, failing input.**  A batch whose only operation-call line is its
final line, `del_image(2)` — syntactically valid and registered: the
no-code-block check fires at the final line before that line is parsed, so
the command is never evaluated and the slide never mutated; but the raised
`SlideEditError` enters the handler with `func` unbound, so the call crashes
with `UnboundLocalError` instead of surfacing the no-executable-command
diagnostic. -/
theorem last_line_valid_command_crashes :
    (function_regex_match "del_image(2)" = true ∧
      registered_functions.contains (funcName "del_image(2)") = true)
    ∧ ∃ st',
      execute_actions sampleEv "prose line\ndel_image(2)" sampleSt false =
        .crash st' .noCodeBlock
      ∧ st'.slide = sampleSt.slide
      ∧ st'.code_history = sampleSt.code_history :=
  ⟨⟨by decide, by decide⟩,
   ⟨⟨sampleSlide, [("api_call_error", 0, "prose line\ndel_image(2)")],
     [], []⟩,
    by decide, by decide, by decide⟩⟩

end PPTAgent
